import Mathlib

/-!
Verification of the decoding core of `pv-scanner.py` (GS1 variable-weight
barcode scanner).

Strings are modelled as `List Char`.  Python's `str.strip()` is modelled
with the ASCII whitespace characters; Python's `float()` is modelled as an
exact parser into `ℚ` covering signed decimal literals with an optional
exponent (the `inf`/`nan`/underscore forms are outside the fragment the
decoder ever produces or the properties below depend on); `re`'s `\d` is
modelled as the ASCII digits `0`-`9`.  Numeric values are exact rationals,
so decimal arithmetic is exact.
-/

/-- Whitespace characters removed by Python's `str.strip()` (ASCII range). -/
def isPySpace (c : Char) : Bool :=
  c == ' ' || c == '\t' || c == '\n' || c == '\r' || c == '\x0b' || c == '\x0c'

/-- Model of Python's `str.strip()`: remove leading and trailing whitespace. -/
def pyStrip (s : List Char) : List Char :=
  ((s.dropWhile isPySpace).reverse.dropWhile isPySpace).reverse

/-- Model of Python's `str.startswith`. -/
def pyStartsWith (s p : List Char) : Bool :=
  s.take p.length == p

/-- One entry of the `formats_map` dictionary in `formater_ligne`: insert a
comma after position `k` of `n` when `len(n) > k`, else `None`. -/
def insertionVirgule (k : Nat) (n : List Char) : Option (List Char) :=
  if k < n.length then some (n.take k ++ ',' :: n.drop k) else none

/-- The `formats_map` dictionary of `formater_ligne`: dispatch on the
4-character format code `"3100"`..`"3105"`; unknown codes yield `None`
(`formats_map.get` returns no entry). -/
def appliquerFormat (prefixe nombre : List Char) : Option (List Char) :=
  if prefixe = ('3' :: '1' :: '0' :: '0' :: []) then some nombre
  else if prefixe = ('3' :: '1' :: '0' :: '1' :: []) then insertionVirgule 5 nombre
  else if prefixe = ('3' :: '1' :: '0' :: '2' :: []) then insertionVirgule 4 nombre
  else if prefixe = ('3' :: '1' :: '0' :: '3' :: []) then insertionVirgule 3 nombre
  else if prefixe = ('3' :: '1' :: '0' :: '4' :: []) then insertionVirgule 2 nombre
  else if prefixe = ('3' :: '1' :: '0' :: '5' :: []) then insertionVirgule 1 nombre
  else none

/-- Body of `formater_ligne` after `chaine = ligne.strip()`:
`len == 13` branch extracting `chaine[7:12]`, the `len < 26` guard, and the
`310x` branch on `chaine[16:26]`. -/
def formater_chaine (chaine : List Char) : Option (List Char) :=
  if chaine.length = 13 then
    if 5 ≤ ((chaine.drop 7).take 5).length then
      some (((chaine.drop 7).take 5).take 2 ++ ',' :: ((chaine.drop 7).take 5).drop 2)
    else none
  else if chaine.length < 26 then none
  else if pyStartsWith ((chaine.drop 16).take 10) ('3' :: '1' :: '0' :: []) then
    appliquerFormat (((chaine.drop 16).take 10).take 4) (((chaine.drop 16).take 10).drop 4)
  else none

/-- Embedding of `formater_ligne` (the WeightDecoder): strip the raw line,
then apply the 13-character or `310x` decoding rules. -/
def formater_ligne (ligne : List Char) : Option (List Char) :=
  formater_chaine (pyStrip ligne)

example : formater_ligne (("1234567890123").toList) = some (("89,012").toList) := by decide
example : formater_ligne (("aaaaaaaaaaaaaaaa3103123456").toList) = some (("123,456").toList) := by
  decide
example : formater_ligne (("aaaaaaaaaaaaaaaa3100123456").toList) = some (("123456").toList) := by
  decide
example : formater_ligne (("  1234567890123  ").toList) = some (("89,012").toList) := by decide
example : formater_ligne (("12345").toList) = none := by decide

/-- Numeric value of a list of decimal digit characters, as Python's `int()`
computes it on a digit string. -/
def digitsVersNat (l : List Char) : Nat :=
  l.foldl (fun a c => 10 * a + (c.toNat - 48)) 0

/-- Optional leading sign of a Python numeric literal: the sign and the
remaining characters. -/
def parseSigne (s : List Char) : Int × List Char :=
  match s with
  | [] => (1, [])
  | c :: r => if c = '+' then (1, r) else if c = '-' then (-1, r) else (1, c :: r)

/-- Mantissa of a Python float literal (`digits`, `digits.`, `digits.digits`
or `.digits`), returned as integer data: the digits read as one integer
(fractional part appended) together with the number of fractional digits,
so that `(m, k)` denotes the value `m / 10 ^ k`. -/
def parseMantisseRaw (s : List Char) : Option (Nat × Nat) :=
  let ip := s.takeWhile Char.isDigit
  match s.dropWhile Char.isDigit with
  | [] => if ip = [] then none else some (digitsVersNat ip, 0)
  | c :: fp =>
    if c = '.' ∧ fp.all Char.isDigit then
      if ip = [] ∧ fp = [] then none
      else some (digitsVersNat ip * 10 ^ fp.length + digitsVersNat fp, fp.length)
    else none

/-- Exponent part of a Python float literal (after `e`/`E`): optional sign
followed by at least one digit. -/
def parseExposant (s : List Char) : Option Int :=
  let sg := (parseSigne s).1
  let r := (parseSigne s).2
  if r ≠ [] ∧ r.all Char.isDigit then some (sg * (digitsVersNat r : Int)) else none

/-- Whether a character introduces the exponent of a float literal. -/
def estCharExposant (c : Char) : Bool := c == 'e' || c == 'E'

/-- Model of Python's `float()` on finite decimal literals, as integer data:
optional sign, mantissa, optional exponent; `none` mirrors `ValueError`.
A result `(m, k, e)` denotes the value `m / 10 ^ k * 10 ^ e`. -/
def pyFloatRaw (s : List Char) : Option (Int × Nat × Int) :=
  let sg := (parseSigne s).1
  let r := (parseSigne s).2
  match parseMantisseRaw (r.takeWhile (fun c => !estCharExposant c)),
        r.dropWhile (fun c => !estCharExposant c) with
  | some m, [] => some (sg * (m.1 : Int), m.2, 0)
  | some m, _ :: e =>
    match parseExposant e with
    | some ex => some (sg * (m.1 : Int), m.2, ex)
    | none => none
  | none, _ => none

/-- Rational value denoted by the integer data of `pyFloatRaw`. -/
def ratVal (t : Int × Nat × Int) : ℚ :=
  (t.1 : ℚ) / 10 ^ t.2.1 * (10 : ℚ) ^ t.2.2

/-- Model of Python's `float()` on finite decimal literals, as an exact
rational. -/
def pyFloat (s : List Char) : Option ℚ :=
  (pyFloatRaw s).map ratVal

/-- Replacement of every comma by a decimal point
(`chaine.replace(",", ".")`). -/
def remplaceVirgule (l : List Char) : List Char :=
  l.map (fun c => if c = ',' then '.' else c)

/-- Body of `valeur_formatee_vers_float` after the `None` check: strip, empty
string gives `0.0`, replace commas, parse as float with `ValueError`
silenced to `0.0`. -/
def valeur_chaine (v : List Char) : ℚ :=
  let chaine := pyStrip v
  if chaine = [] then 0
  else
    match pyFloat (remplaceVirgule chaine) with
    | some q => q
    | none => 0

/-- Embedding of `valeur_formatee_vers_float` (the ValueNormalizer). -/
def valeur_formatee_vers_float (valeur : Option (List Char)) : ℚ :=
  match valeur with
  | none => 0
  | some v => valeur_chaine v

/-- Evaluation form of `valeur_chaine`: the empty-string case coincides with
the parse-failure case, so the whole function is the parsed value with
default `0`. -/
theorem valeur_chaine_eval (v : List Char) :
    valeur_chaine v = ((pyFloatRaw (remplaceVirgule (pyStrip v))).map ratVal).getD 0 := by
  unfold valeur_chaine pyFloat
  cases h : pyStrip v with
  | nil => simp [h, remplaceVirgule, pyFloatRaw, parseSigne, parseMantisseRaw]
  | cons c l =>
    simp only [h]
    rw [if_neg (by simp)]
    cases pyFloatRaw (remplaceVirgule (c :: l)) <;> simp [pyFloat]

example : pyFloatRaw (("1.5").toList) = some (15, 1, 0) := by decide
example : pyFloatRaw (("-123.4").toList) = some (-1234, 1, 0) := by decide
example : pyFloatRaw (("2e3").toList) = some (2, 0, 3) := by decide
example : pyFloatRaw (("abc").toList) = none := by decide
example : valeur_formatee_vers_float (some (("1,5").toList)) = 3 / 2 := by
  have h : pyFloatRaw (remplaceVirgule (pyStrip (("1,5").toList))) = some (15, 1, 0) := by decide
  show valeur_chaine (("1,5").toList) = 3 / 2
  rw [valeur_chaine_eval, h]
  norm_num [ratVal]
example : valeur_formatee_vers_float (some []) = 0 := rfl
example : valeur_formatee_vers_float (some (("abc").toList)) = 0 := by
  have h : pyFloatRaw (remplaceVirgule (pyStrip (("abc").toList))) = none := by decide
  show valeur_chaine (("abc").toList) = 0
  rw [valeur_chaine_eval, h]
  rfl
example : valeur_formatee_vers_float none = 0 := rfl

/-- Leap year of the proleptic Gregorian calendar, as Python's
`datetime` uses it. -/
def estBissextile (a : Nat) : Bool :=
  (a % 4 == 0 && a % 100 != 0) || a % 400 == 0

/-- Number of days of a month, as Python's `datetime` validates it. -/
def joursDansMois (a m : Nat) : Nat :=
  if m = 2 then (if estBissextile a then 29 else 28)
  else if m = 4 ∨ m = 6 ∨ m = 9 ∨ m = 11 then 30
  else 31

/-- Validity check performed by the `datetime(annee, mois, jour)`
constructor: year within `MINYEAR`..`MAXYEAR`, month `1`..`12`, day within
the month; an invalid combination raises, which `extraire_dlc_from_scan`
turns into `None`. -/
def estDateValide (a m j : Nat) : Bool :=
  1 ≤ a && a ≤ 9999 && 1 ≤ m && m ≤ 12 && 1 ≤ j && j ≤ joursDansMois a m

/-- Model of the `%02d` format for the arguments it receives here
(day and month, always below 100). -/
def formatDeux (n : Nat) : List Char :=
  Char.ofNat (48 + n / 10 % 10) :: Char.ofNat (48 + n % 10) :: []

/-- Model of the `%04d` format for the argument it receives here
(a year `2000`..`2099`, always below 10000). -/
def formatQuatre (n : Nat) : List Char :=
  Char.ofNat (48 + n / 1000 % 10) :: Char.ofNat (48 + n / 100 % 10) ::
    Char.ofNat (48 + n / 10 % 10) :: Char.ofNat (48 + n % 10) :: []

/-- Rendering `f"{jour:02d}/{mois:02d}/{annee:04d}"`. -/
def rendreDate (jour mois annee : Nat) : List Char :=
  formatDeux jour ++ '/' :: formatDeux mois ++ '/' :: formatQuatre annee

/-- Match of the regular expression `15(\d{6})` anchored at the head of
`l`: the literal characters `1`, `5` followed by at least six digits; the
captured group is those six digits. -/
def matchAt15 (l : List Char) : Option (List Char) :=
  if l.take 2 = ('1' :: '5' :: []) ∧ 6 ≤ (l.drop 2).length
      ∧ ((l.drop 2).take 6).all Char.isDigit = true
  then some ((l.drop 2).take 6)
  else none

/-- Model of `re.search(r"15(\d{6})", l)`: scan positions left to right and
return the captured group of the first position where the pattern matches. -/
def search15 (l : List Char) : Option (List Char) :=
  match l with
  | [] => none
  | c :: rest =>
    match matchAt15 (c :: rest) with
    | some g => some g
    | none => search15 rest

/-- Date validation and rendering part of `extraire_dlc_from_scan`: split
the captured `yymmjj` group, apply the `20YY` century rule, validate with
`datetime`, and render `DD/MM/YYYY`. -/
def validerDate (g : List Char) : Option (List Char) :=
  let aa := digitsVersNat (g.take 2)
  let mois := digitsVersNat ((g.drop 2).take 2)
  let jour := digitsVersNat ((g.drop 4).take 2)
  let annee := 2000 + aa
  if estDateValide annee mois jour then some (rendreDate jour mois annee) else none

/-- Search part of `extraire_dlc_from_scan` on `reste = texte_nettoye[26:]`. -/
def extraireReste (reste : List Char) : Option (List Char) :=
  match search15 reste with
  | none => none
  | some g => validerDate g

/-- Body of `extraire_dlc_from_scan` after `texte_nettoye = texte.strip()`. -/
def extraireChaine (t : List Char) : Option (List Char) :=
  if t.length ≤ 26 then none else extraireReste (t.drop 26)

/-- Embedding of `extraire_dlc_from_scan` (the ExpiryDecoder). -/
def extraire_dlc_from_scan (texte : List Char) : Option (List Char) :=
  extraireChaine (pyStrip texte)

example : extraire_dlc_from_scan (("aaaaaaaaaaaaaaaaaaaaaaaaaa15230228").toList)
    = some (("28/02/2023").toList) := by decide
example : extraire_dlc_from_scan (("aaaaaaaaaaaaaaaaaaaaaaaaaa15230230").toList) = none := by
  decide
example : extraire_dlc_from_scan (("aaaaaaaaaaaaaaaaaa15230228").toList) = none := by decide
example : extraire_dlc_from_scan (("aaaaaaaaaaaaaaaaaaaaaaaaaaxx15303030xx15230228").toList)
    = none := by decide

/-- Suspect-value test of `mettre_a_jour_total`:
`valeur > 50 or (valeur > 0 and valeur < 0.01)`. -/
def anomalie (valeur : ℚ) : Prop :=
  50 < valeur ∨ (0 < valeur ∧ valeur < 1 / 100)

instance (valeur : ℚ) : Decidable (anomalie valeur) := by
  unfold anomalie
  infer_instance

/-- Effective numeric weight of a non-empty cell text in
`mettre_a_jour_total`: the formatted value when `formater_ligne` returns a
truthy (non-empty) string, else the raw text. -/
def poidsEffectif (texte : List Char) : ℚ :=
  match formater_ligne texte with
  | some f => if f = [] then valeur_formatee_vers_float (some texte)
              else valeur_formatee_vers_float (some f)
  | none => valeur_formatee_vers_float (some texte)

/-- Loop of `mettre_a_jour_total` over the weight column: `r` is the current
row index, `total` the running sum, `err` the first anomalous row found so
far (`premiere_ligne_erreur`).  A cell is `none` when the table has no item
there. -/
def mettre_a_jour_total_aux : List (Option (List Char)) → Nat → ℚ → Option Nat → ℚ × Option Nat
  | [], _, total, err => (total, err)
  | none :: reste, r, total, err => mettre_a_jour_total_aux reste (r + 1) total err
  | some ct :: reste, r, total, err =>
    if pyStrip ct = [] then mettre_a_jour_total_aux reste (r + 1) total err
    else
      mettre_a_jour_total_aux reste (r + 1) (total + poidsEffectif (pyStrip ct))
        (if anomalie (poidsEffectif (pyStrip ct)) ∧ err = none then some (r + 1) else err)

/-- Embedding of `mettre_a_jour_total` (the AnomalyAggregator): the computed
total and the 1-based index of the first anomalous row, over the given
column of cells. -/
def mettre_a_jour_total (cellules : List (Option (List Char))) : ℚ × Option Nat :=
  mettre_a_jour_total_aux cellules 0 0 none

/-- Normalized weight carried by a cell: `none` for a missing item or blank
text, else the effective weight of the stripped text. -/
def poidsCellule : Option (List Char) → Option ℚ
  | none => none
  | some ct => if pyStrip ct = [] then none else some (poidsEffectif (pyStrip ct))

/-- Whether a cell carries an anomalous normalized weight. -/
def celluleAnormale (c : Option (List Char)) : Prop :=
  match poidsCellule c with
  | some v => anomalie v
  | none => False

instance (c : Option (List Char)) : Decidable (celluleAnormale c) := by
  unfold celluleAnormale
  cases poidsCellule c <;> simp <;> infer_instance

/-- Index (0-based) of the first element satisfying `p`, stated directly
from the specification. -/
def chercheIndex {α : Type} (p : α → Prop) [DecidablePred p] : List α → Option Nat
  | [] => none
  | a :: as => if p a then some 0 else Option.map (fun i => i + 1) (chercheIndex p as)

/-- Specification-side total: sum of the normalized weights of the
non-empty cells, in order. -/
def totalSpec (cellules : List (Option (List Char))) : ℚ :=
  (cellules.filterMap poidsCellule).sum

/-- Specification-side first anomalous index, 1-based. -/
def premierAnormalSpec (cellules : List (Option (List Char))) : Option Nat :=
  Option.map (fun i => i + 1) (chercheIndex celluleAnormale cellules)

/-- Stripping never lengthens a string. -/
theorem pyStrip_length_le (s : List Char) : (pyStrip s).length ≤ s.length := by
  unfold pyStrip
  rw [List.length_reverse]
  calc ((s.dropWhile isPySpace).reverse.dropWhile isPySpace).length
      ≤ (s.dropWhile isPySpace).reverse.length :=
        ((s.dropWhile isPySpace).reverse.dropWhile_sublist isPySpace).length_le
    _ = (s.dropWhile isPySpace).length := List.length_reverse _
    _ ≤ s.length := (s.dropWhile_sublist isPySpace).length_le

/-- A string that is neither 13 characters long nor at least 26 characters
long falls through both branches of `formater_chaine`. -/
theorem formater_chaine_court (t : List Char) (h : t.length ≤ 7) :
    formater_chaine t = none := by
  unfold formater_chaine
  rw [if_neg (by omega), if_pos (by omega)]

/-- Reduction of `formater_ligne` on a 13-character stripped input. -/
theorem formater_chaine_treize (t : List Char) (h : t.length = 13) :
    formater_chaine t =
      some (((t.drop 7).take 5).take 2 ++ ',' :: ((t.drop 7).take 5).drop 2) := by
  unfold formater_chaine
  rw [if_pos h, if_pos (by simp [List.length_take, List.length_drop, h])]

/-- Reduction of `formater_ligne` on a long stripped input whose window at
offset 16 carries the `310` application identifier. -/
theorem formater_chaine_long (t : List Char) (h26 : 26 ≤ t.length)
    (h310 : (t.drop 16).take 3 = ('3' :: '1' :: '0' :: [])) :
    formater_chaine t = appliquerFormat ((t.drop 16).take 4) ((t.drop 20).take 6) := by
  unfold formater_chaine
  rw [if_neg (by omega), if_neg (by omega), if_pos]
  · congr 1
    · simp [List.take_take]
    · rw [List.drop_take, List.drop_drop]
  · unfold pyStartsWith
    simp only [List.length_cons, List.length_nil]
    rw [List.take_take]
    simpa using h310

/-- Inversion of the `formats_map` dispatch: a successful result is either
the unchanged digit run (code `3100`) or the run with a comma inserted after
position `k`, `1 ≤ k ≤ 5`, which requires `k < length`. -/
theorem appliquerFormat_inversion (p n w : List Char) (h : appliquerFormat p n = some w) :
    (p = ('3' :: '1' :: '0' :: '0' :: []) ∧ w = n)
    ∨ (p ≠ ('3' :: '1' :: '0' :: '0' :: []) ∧
        ∃ k, 1 ≤ k ∧ k ≤ 5 ∧ k < n.length ∧ w = n.take k ++ ',' :: n.drop k) := by
  unfold appliquerFormat insertionVirgule at h
  split_ifs at h with h0 h1 h2 h3 h4 h5 <;>
    first
      | (left; exact ⟨h0, (Option.some_injective _ h).symm⟩)
      | (right
         refine ⟨h0, ?_⟩
         first
          | exact ⟨5, by omega, by omega, by assumption, (Option.some_injective _ h).symm⟩
          | exact ⟨4, by omega, by omega, by assumption, (Option.some_injective _ h).symm⟩
          | exact ⟨3, by omega, by omega, by assumption, (Option.some_injective _ h).symm⟩
          | exact ⟨2, by omega, by omega, by assumption, (Option.some_injective _ h).symm⟩
          | exact ⟨1, by omega, by omega, by assumption, (Option.some_injective _ h).symm⟩)

/-- Inversion of `formater_chaine`: a successful result comes from the
13-character branch or from the `310x` branch at offset 16 with a run of
exactly six characters. -/
theorem formater_chaine_inversion (t w : List Char) (h : formater_chaine t = some w) :
    (t.length = 13 ∧ w = ((t.drop 7).take 5).take 2 ++ ',' :: ((t.drop 7).take 5).drop 2)
    ∨ (26 ≤ t.length ∧ appliquerFormat ((t.drop 16).take 4) ((t.drop 20).take 6) = some w) := by
  by_cases h13 : t.length = 13
  · left
    refine ⟨h13, ?_⟩
    rw [formater_chaine_treize t h13] at h
    exact (Option.some_injective _ h).symm
  · by_cases h26 : t.length < 26
    · exfalso
      unfold formater_chaine at h
      rw [if_neg h13, if_pos h26] at h
      exact Option.noConfusion h
    · right
      refine ⟨by omega, ?_⟩
      unfold formater_chaine at h
      rw [if_neg h13, if_neg h26] at h
      by_cases hsw : pyStartsWith ((t.drop 16).take 10) ('3' :: '1' :: '0' :: []) = true
      · rw [if_pos hsw] at h
        rw [← h]
        congr 1
        · simp [List.take_take]
        · rw [List.drop_take, List.drop_drop]
      · rw [if_neg hsw] at h
        exact Option.noConfusion h

/-- Every string `formater_ligne` produces has at most 7 characters: 6 from
the 13-character branch or code `3100`, 7 from codes `3101`..`3105`. -/
theorem formater_ligne_sortie_courte (s w : List Char) (h : formater_ligne s = some w) :
    w.length ≤ 7 := by
  rcases formater_chaine_inversion (pyStrip s) w h with ⟨h13, hw⟩ | ⟨h26, happ⟩
  · subst hw
    simp [List.length_take, List.length_drop, h13]
  · have hn : (((pyStrip s).drop 20).take 6).length = 6 := by
      simp [List.length_take, List.length_drop]
      omega
    rcases appliquerFormat_inversion _ _ _ happ with ⟨_, hw⟩ | ⟨_, k, hk1, hk5, hklt, hw⟩ <;>
      subst hw
    · omega
    · simp [List.length_take, List.length_drop]
      omega

/-- C1 (counterexample): on the very input named by the claim,
`"1234567890123"`, the decoder returns `"89,012"` — the characters at
positions 7..11 are `"89012"`, not `"78901"` — so the claimed output
`"78,901"` is wrong. -/
theorem formater_ligne_treize_contre :
    formater_ligne (("1234567890123").toList) = some (("89,012").toList)
    ∧ formater_ligne (("1234567890123").toList) ≠ some (("78,901").toList) := by
  constructor
  · decide
  · decide

/-- C1 (amended): for every input whose trimmed length is exactly 13,
`formater_ligne` returns the 5-character substring at offset 7 (positions
7..11) split after its 2nd character and joined with a comma; on
`"1234567890123"` those positions hold `"89012"`, so it yields `"89,012"`. -/
theorem formater_ligne_treize (s : List Char) (h : (pyStrip s).length = 13) :
    formater_ligne s =
      some ((((pyStrip s).drop 7).take 5).take 2 ++ ','
        :: (((pyStrip s).drop 7).take 5).drop 2) :=
  formater_chaine_treize (pyStrip s) h

/-- Witness for C1's amended theorem at the concrete input
`"1234567890123"`. -/
theorem formater_ligne_treize_temoin :
    formater_ligne (("1234567890123").toList) = some (("89,012").toList) := by
  rw [formater_ligne_treize (("1234567890123").toList) (by decide)]
  decide

/-- C2: for every input whose trimmed length is at least 26 and whose window
at offset 16 starts with `310`, the decoder keys on the 4-character format
code: `3100` returns the digit run unchanged, `3101`..`3105` insert a comma
after positions 5, 4, 3, 2, 1 respectively — each an insertion guarded by
the run being strictly longer than the position (`insertionVirgule`) — and
any other code yields no match.  The run is the 6-character window at
offset 20, so the insertion guards are always satisfied. -/
theorem formater_ligne_ai310 (s : List Char) (h26 : 26 ≤ (pyStrip s).length)
    (h310 : ((pyStrip s).drop 16).take 3 = ('3' :: '1' :: '0' :: [])) :
    (((pyStrip s).drop 20).take 6).length = 6
    ∧ (((pyStrip s).drop 16).take 4 = ('3' :: '1' :: '0' :: '0' :: []) →
        formater_ligne s = some (((pyStrip s).drop 20).take 6))
    ∧ (((pyStrip s).drop 16).take 4 = ('3' :: '1' :: '0' :: '1' :: []) →
        formater_ligne s = insertionVirgule 5 (((pyStrip s).drop 20).take 6))
    ∧ (((pyStrip s).drop 16).take 4 = ('3' :: '1' :: '0' :: '2' :: []) →
        formater_ligne s = insertionVirgule 4 (((pyStrip s).drop 20).take 6))
    ∧ (((pyStrip s).drop 16).take 4 = ('3' :: '1' :: '0' :: '3' :: []) →
        formater_ligne s = insertionVirgule 3 (((pyStrip s).drop 20).take 6))
    ∧ (((pyStrip s).drop 16).take 4 = ('3' :: '1' :: '0' :: '4' :: []) →
        formater_ligne s = insertionVirgule 2 (((pyStrip s).drop 20).take 6))
    ∧ (((pyStrip s).drop 16).take 4 = ('3' :: '1' :: '0' :: '5' :: []) →
        formater_ligne s = insertionVirgule 1 (((pyStrip s).drop 20).take 6))
    ∧ ((((pyStrip s).drop 16).take 4 = ('3' :: '1' :: '0' :: '0' :: []) → False) →
       (((pyStrip s).drop 16).take 4 = ('3' :: '1' :: '0' :: '1' :: []) → False) →
       (((pyStrip s).drop 16).take 4 = ('3' :: '1' :: '0' :: '2' :: []) → False) →
       (((pyStrip s).drop 16).take 4 = ('3' :: '1' :: '0' :: '3' :: []) → False) →
       (((pyStrip s).drop 16).take 4 = ('3' :: '1' :: '0' :: '4' :: []) → False) →
       (((pyStrip s).drop 16).take 4 = ('3' :: '1' :: '0' :: '5' :: []) → False) →
        formater_ligne s = none) := by
  have hred : formater_ligne s =
      appliquerFormat (((pyStrip s).drop 16).take 4) (((pyStrip s).drop 20).take 6) :=
    formater_chaine_long (pyStrip s) h26 h310
  refine ⟨by simp [List.length_take, List.length_drop]; omega, ?_, ?_, ?_, ?_, ?_, ?_, ?_⟩
  · intro h0
    rw [hred, h0]
    rfl
  · intro h0
    rw [hred, h0]
    rfl
  · intro h0
    rw [hred, h0]
    rfl
  · intro h0
    rw [hred, h0]
    rfl
  · intro h0
    rw [hred, h0]
    rfl
  · intro h0
    rw [hred, h0]
    rfl
  · intro h0 h1 h2 h3 h4 h5
    rw [hred]
    unfold appliquerFormat
    rw [if_neg h0, if_neg h1, if_neg h2, if_neg h3, if_neg h4, if_neg h5]

/-- Witness for C2 at a concrete input with format code `3103` and digit run
`123456`, decoded to `123,456`. -/
theorem formater_ligne_ai310_temoin :
    formater_ligne (("abcdefghijklmnop3103123456").toList) = some (("123,456").toList) := by
  have h := (formater_ligne_ai310 (("abcdefghijklmnop3103123456").toList)
    (by decide) (by decide)).2.2.2.2.1 (by decide)
  rw [h]
  decide

/-- C9: re-applying `formater_ligne` to any of its own outputs yields no
match: every output has at most 7 characters, so after stripping it is
neither exactly 13 characters long nor at least 26. -/
theorem formater_ligne_non_rechainable (s w : List Char) (h : formater_ligne s = some w) :
    formater_ligne w = none := by
  have hlen : w.length ≤ 7 := formater_ligne_sortie_courte s w h
  exact formater_chaine_court (pyStrip w) (le_trans (pyStrip_length_le w) hlen)

/-- Witness for C9: the output `"89,012"` of the decoder on
`"1234567890123"` is itself decoded to no match. -/
theorem formater_ligne_non_rechainable_temoin :
    formater_ligne (("89,012").toList) = none :=
  formater_ligne_non_rechainable (("1234567890123").toList) (("89,012").toList) (by decide)

/-- Specification predicate of the WeightString invariant: exactly one comma
separator (a decomposition around a comma with comma-free sides) and at
least one digit on each side. -/
def bonPoids (w : List Char) : Prop :=
  ∃ a b, w = a ++ ',' :: b ∧ (∀ c ∈ a, c ≠ ',') ∧ (∀ c ∈ b, c ≠ ',')
    ∧ (∃ c ∈ a, c.isDigit = true) ∧ (∃ c ∈ b, c.isDigit = true)

/-- Splitting an all-digit run after position `k`, `1 ≤ k < length`,
produces a well-formed weight string. -/
theorem bonPoids_insertion (n : List Char) (k : Nat) (h1 : 1 ≤ k) (hlt : k < n.length)
    (hdig : n.all Char.isDigit = true) : bonPoids (n.take k ++ ',' :: n.drop k) := by
  have hall := List.all_eq_true.mp hdig
  refine ⟨n.take k, n.drop k, rfl, ?_, ?_, ?_, ?_⟩
  · intro c hc he
    have := hall c (List.take_subset k n hc)
    rw [he] at this
    exact absurd this (by decide)
  · intro c hc he
    have := hall c (List.drop_subset k n hc)
    rw [he] at this
    exact absurd this (by decide)
  · have hne : n.take k ≠ [] := by
      have : (n.take k).length = k := by simp [List.length_take]; omega
      intro hnil
      rw [hnil] at this
      simp at this
      omega
    obtain ⟨c, hc⟩ := List.exists_mem_of_ne_nil _ hne
    exact ⟨c, hc, hall c (List.take_subset k n hc)⟩
  · have hne : n.drop k ≠ [] := by
      have : (n.drop k).length = n.length - k := by simp [List.length_drop]
      intro hnil
      rw [hnil] at this
      simp at this
      omega
    obtain ⟨c, hc⟩ := List.exists_mem_of_ne_nil _ hne
    exact ⟨c, hc, hall c (List.drop_subset k n hc)⟩

/-- C5 (counterexample): format code `3100` returns the digit run with no
comma at all, so a produced WeightString need not contain a comma
separator. -/
theorem poids_virgule_contre :
    formater_ligne (("aaaaaaaaaaaaaaaa3100123456").toList) = some (("123456").toList)
    ∧ ¬ bonPoids (("123456").toList) := by
  constructor
  · decide
  · rintro ⟨a, b, hw, -, -, -, -⟩
    have hm : ',' ∈ (("123456").toList) := by
      rw [hw]
      exact List.mem_append_right a (List.mem_cons_self ',' b)
    revert hm
    decide

/-- C5 (amended): a WeightString contains exactly one comma with at least
one digit on each side whenever the extracted window consists of digit
characters and, in the long form, the format code is not `3100` (code
`3100` returns the bare digit run with no comma, and a non-digit window is
copied into the output as-is). -/
theorem poids_bon_format :
    (∀ s w, formater_ligne s = some w → (pyStrip s).length = 13 →
      (((pyStrip s).drop 7).take 5).all Char.isDigit = true → bonPoids w)
    ∧ (∀ s w, formater_ligne s = some w → 26 ≤ (pyStrip s).length →
      (((pyStrip s).drop 20).take 6).all Char.isDigit = true →
      ((pyStrip s).drop 16).take 4 ≠ ('3' :: '1' :: '0' :: '0' :: []) → bonPoids w) := by
  constructor
  · intro s w h h13 hdig
    rw [formater_ligne_treize s h13] at h
    have hw := (Option.some_injective _ h).symm
    subst hw
    refine bonPoids_insertion _ 2 (by omega) ?_ hdig
    simp [List.length_take, List.length_drop]
    omega
  · intro s w h h26 hdig hcode
    rcases formater_chaine_inversion (pyStrip s) w h with ⟨h13, -⟩ | ⟨-, happ⟩
    · omega
    · rcases appliquerFormat_inversion _ _ _ happ with ⟨hc, -⟩ | ⟨-, k, hk1, -, hklt, hw⟩
      · exact absurd hc hcode
      · subst hw
        exact bonPoids_insertion _ k hk1 hklt hdig

/-- Witness for C5's amended theorem: the output `"89,012"` on the all-digit
13-character input `"1234567890123"` is a well-formed weight string. -/
theorem poids_bon_format_temoin : bonPoids (("89,012").toList) :=
  poids_bon_format.1 (("1234567890123").toList) (("89,012").toList)
    (by decide) (by decide) (by decide)

/-- A list whose head fails the predicate is untouched by `dropWhile`. -/
theorem dropWhile_eq_self_de (p : Char → Bool) (l : List Char)
    (h : ∀ c ∈ l, p c = false) : l.dropWhile p = l := by
  cases l with
  | nil => rfl
  | cons c t =>
    rw [List.dropWhile_cons, if_neg]
    simp [h c (List.mem_cons_self c t)]

/-- A list all of whose elements satisfy the predicate is kept whole by
`takeWhile`. -/
theorem takeWhile_eq_self_de (p : Char → Bool) (l : List Char)
    (h : ∀ c ∈ l, p c = true) : l.takeWhile p = l := by
  induction l with
  | nil => rfl
  | cons c t ih =>
    rw [List.takeWhile_cons, if_pos (h c (List.mem_cons_self c t))]
    rw [ih (fun d hd => h d (List.mem_cons_of_mem c hd))]

/-- A list all of whose elements satisfy the predicate is emptied by
`dropWhile`. -/
theorem dropWhile_eq_nil_de (p : Char → Bool) (l : List Char)
    (h : ∀ c ∈ l, p c = true) : l.dropWhile p = [] := by
  induction l with
  | nil => rfl
  | cons c t ih =>
    rw [List.dropWhile_cons, if_pos (h c (List.mem_cons_self c t))]
    exact ih (fun d hd => h d (List.mem_cons_of_mem c hd))

/-- Stripping a string with no whitespace at all is the identity. -/
theorem pyStrip_eq_self (w : List Char) (h : ∀ c ∈ w, isPySpace c = false) :
    pyStrip w = w := by
  unfold pyStrip
  rw [dropWhile_eq_self_de _ _ h, dropWhile_eq_self_de, List.reverse_reverse]
  intro c hc
  exact h c (List.mem_reverse.mp hc)

/-- A digit character is not stripped as whitespace. -/
theorem chiffre_pas_espace (c : Char) (h : c.isDigit = true) : isPySpace c = false := by
  rcases Bool.eq_false_or_eq_true (isPySpace c) with ht | hf
  case inr => exact hf
  · exfalso
    unfold isPySpace at ht
    simp only [Bool.or_eq_true, beq_iff_eq] at ht
    rcases ht with ((((h1 | h1) | h1) | h1) | h1) | h1 <;> (rw [h1] at h; exact absurd h (by decide))

/-- A digit or dot character carries no sign and no exponent marker, so a
parse of a digit-and-dot string keeps the non-negative mantissa: the first
component of the raw parse is non-negative. -/
theorem pyFloatRaw_nonneg (x : List Char) (hx : ∀ c ∈ x, c.isDigit = true ∨ c = '.')
    (hne : x ≠ []) : ∀ t, pyFloatRaw x = some t → 0 ≤ t.1 := by
  intro t ht
  have hsg : parseSigne x = (1, x) := by
    cases x with
    | nil => exact absurd rfl hne
    | cons c r =>
      have hc := hx c (List.mem_cons_self c r)
      have h1 : ¬ c = '+' := by
        rcases hc with hd | hdot
        · intro he
          rw [he] at hd
          exact absurd hd (by decide)
        · rw [hdot]
          decide
      have h2 : ¬ c = '-' := by
        rcases hc with hd | hdot
        · intro he
          rw [he] at hd
          exact absurd hd (by decide)
        · rw [hdot]
          decide
      have hr : parseSigne (c :: r)
          = if c = '+' then ((1 : Int), r) else if c = '-' then (-1, r) else (1, c :: r) := rfl
      rw [hr, if_neg h1, if_neg h2]
  have hpasexp : ∀ c ∈ x, (fun c => !estCharExposant c) c = true := by
    intro c hc
    have h1 : ¬ c = 'e' := by
      rcases hx c hc with hd | hdot
      · intro he
        rw [he] at hd
        exact absurd hd (by decide)
      · rw [hdot]
        decide
    have h2 : ¬ c = 'E' := by
      rcases hx c hc with hd | hdot
      · intro he
        rw [he] at hd
        exact absurd hd (by decide)
      · rw [hdot]
        decide
    simp [estCharExposant, h1, h2]
  unfold pyFloatRaw at ht
  rw [hsg] at ht
  simp only at ht
  rw [takeWhile_eq_self_de _ _ hpasexp, dropWhile_eq_nil_de _ _ hpasexp] at ht
  cases hm : parseMantisseRaw x with
  | none => rw [hm] at ht; exact absurd ht (by simp)
  | some m =>
    rw [hm] at ht
    simp only [Option.some_inj] at ht
    rw [← ht]
    simp

/-- The denoted value of a raw parse with non-negative mantissa is
non-negative. -/
theorem ratVal_nonneg (t : Int × Nat × Int) (h : 0 ≤ t.1) : 0 ≤ ratVal t :=
  mul_nonneg (div_nonneg (by exact_mod_cast h) (by positivity))
    (le_of_lt (zpow_pos (by norm_num) _))

/-- Normalizing a non-empty string of digits and at most one comma yields a
non-negative value. -/
theorem valeur_chaine_nonneg_chiffres (w : List Char)
    (hw : ∀ c ∈ w, c.isDigit = true ∨ c = ',') (hne : w ≠ []) :
    0 ≤ valeur_chaine w := by
  have hsp : ∀ c ∈ w, isPySpace c = false := by
    intro c hc
    rcases hw c hc with hd | hcm
    · exact chiffre_pas_espace c hd
    · rw [hcm]
      decide
  rw [valeur_chaine_eval, pyStrip_eq_self w hsp]
  have hx : ∀ c ∈ remplaceVirgule w, c.isDigit = true ∨ c = '.' := by
    intro c hc
    unfold remplaceVirgule at hc
    obtain ⟨d, hd, hdc⟩ := List.mem_map.mp hc
    rcases hw d hd with hdd | hdm
    · have : ¬ d = ',' := by
        intro he
        rw [he] at hdd
        exact absurd hdd (by decide)
      rw [if_neg this] at hdc
      left
      rw [← hdc]
      exact hdd
    · rw [if_pos hdm] at hdc
      right
      exact hdc.symm
  have hxne : remplaceVirgule w ≠ [] := by
    unfold remplaceVirgule
    simp [hne]
  cases hp : pyFloatRaw (remplaceVirgule w) with
  | none => simp
  | some t => simpa using ratVal_nonneg t (pyFloatRaw_nonneg _ hx hxne t hp)

/-- C8 (counterexample): code `3100` copies the raw window, so the decoder
can output `"-123.4"`, which normalizes to a negative value. -/
theorem poids_normalise_contre :
    formater_ligne (("aaaaaaaaaaaaaaaa3100-123.4").toList) = some (("-123.4").toList)
    ∧ valeur_formatee_vers_float (some (("-123.4").toList)) < 0 := by
  constructor
  · decide
  · show valeur_chaine (("-123.4").toList) < 0
    rw [valeur_chaine_eval,
      show pyFloatRaw (remplaceVirgule (pyStrip (("-123.4").toList))) = some (-1234, 1, 0)
        from by decide]
    norm_num [ratVal]

/-- C8 (amended): the normalized value of a produced WeightString is
(finite and) non-negative whenever the extracted window consists of digit
characters; in the exact-rational model every value is finite, and
non-negativity holds because such outputs are digits with at most one
comma. -/
theorem poids_normalise_nonneg :
    ∀ s w, formater_ligne s = some w →
      ((pyStrip s).length = 13 → (((pyStrip s).drop 7).take 5).all Char.isDigit = true) →
      (26 ≤ (pyStrip s).length → (((pyStrip s).drop 20).take 6).all Char.isDigit = true) →
      0 ≤ valeur_formatee_vers_float (some w) := by
  intro s w h hd13 hd26
  show 0 ≤ valeur_chaine w
  rcases formater_chaine_inversion (pyStrip s) w h with ⟨h13, hw⟩ | ⟨h26, happ⟩
  · have hall := List.all_eq_true.mp (hd13 h13)
    refine valeur_chaine_nonneg_chiffres w ?_ ?_
    · intro c hc
      rw [hw] at hc
      rcases List.mem_append.mp hc with hc1 | hc2
      · exact Or.inl (hall c (List.take_subset 2 _ hc1))
      · rcases List.mem_cons.mp hc2 with hc3 | hc4
        · exact Or.inr hc3
        · exact Or.inl (hall c (List.drop_subset 2 _ hc4))
    · rw [hw]
      simp
  · have hall := List.all_eq_true.mp (hd26 h26)
    have hlen : (((pyStrip s).drop 20).take 6).length = 6 := by
      simp [List.length_take, List.length_drop]
      omega
    rcases appliquerFormat_inversion _ _ _ happ with ⟨-, hw⟩ | ⟨-, k, -, -, -, hw⟩
    · refine valeur_chaine_nonneg_chiffres w ?_ ?_
      · intro c hc
        rw [hw] at hc
        exact Or.inl (hall c hc)
      · intro hnil
        rw [hnil] at hw
        rw [← hw] at hlen
        simp at hlen
    · refine valeur_chaine_nonneg_chiffres w ?_ ?_
      · intro c hc
        rw [hw] at hc
        rcases List.mem_append.mp hc with hc1 | hc2
        · exact Or.inl (hall c (List.take_subset k _ hc1))
        · rcases List.mem_cons.mp hc2 with hc3 | hc4
          · exact Or.inr hc3
          · exact Or.inl (hall c (List.drop_subset k _ hc4))
      · rw [hw]
        simp

/-- Witness for C8's amended theorem at the output `"89,012"` of the
all-digit input `"1234567890123"`. -/
theorem poids_normalise_nonneg_temoin :
    0 ≤ valeur_formatee_vers_float (some (("89,012").toList)) :=
  poids_normalise_nonneg (("1234567890123").toList) (("89,012").toList)
    (by decide) (by decide) (by decide)

/-- Occurrence of the AI-15 expiry pattern at position `i` of `l`: the
characters `1`, `5` immediately followed by at least six characters, the
next six of which are all digits. -/
def occ15At (l : List Char) (i : Nat) : Prop :=
  (l.drop i).take 2 = ('1' :: '5' :: []) ∧ 6 ≤ (l.drop (i + 2)).length
    ∧ ((l.drop (i + 2)).take 6).all Char.isDigit = true

/-- A head match of the pattern fails exactly when there is no occurrence
at position 0. -/
theorem matchAt15_none (l : List Char) : matchAt15 l = none ↔ ¬ occ15At l 0 := by
  unfold matchAt15
  split_ifs with h
  · constructor
    · intro hs
      exact absurd hs (by simp)
    · intro hn
      exact absurd h hn
  · constructor
    · intro _ hocc
      exact h hocc
    · intro _
      rfl

/-- A successful head match is an occurrence at position 0 capturing the six
digits after the `15` marker. -/
theorem matchAt15_some (l g : List Char) (h : matchAt15 l = some g) :
    occ15At l 0 ∧ g = (l.drop 2).take 6 := by
  unfold matchAt15 at h
  split_ifs at h with hc
  exact ⟨hc, (Option.some_injective _ h).symm⟩

/-- Pattern occurrences shift across a cons cell. -/
theorem occ15At_succ (c : Char) (l : List Char) (i : Nat) :
    occ15At (c :: l) (i + 1) ↔ occ15At l i := by
  unfold occ15At
  rw [List.drop_succ_cons, show i + 1 + 2 = (i + 2) + 1 from by omega, List.drop_succ_cons]

/-- The scan fails exactly when the pattern occurs at no position. -/
theorem search15_none (l : List Char) : search15 l = none ↔ ∀ i, ¬ occ15At l i := by
  induction l with
  | nil =>
    constructor
    · intro _ i
      unfold occ15At
      simp
    · intro _
      rfl
  | cons c t ih =>
    unfold search15
    cases hm : matchAt15 (c :: t) with
    | some g =>
      constructor
      · intro h
        exact absurd h (by simp)
      · intro hall
        exact ((hall 0) (matchAt15_some _ _ hm).1).elim
    | none =>
      rw [ih]
      constructor
      · intro h i
        cases i with
        | zero => exact (matchAt15_none _).mp hm
        | succ j =>
          rw [occ15At_succ]
          exact h j
      · intro h i
        have := h (i + 1)
        rw [occ15At_succ] at this
        exact this

/-- A successful scan returns the captured digits of the first position at
which the pattern occurs. -/
theorem search15_some (l g : List Char) (h : search15 l = some g) :
    ∃ i, occ15At l i ∧ g = ((l.drop (i + 2)).take 6) ∧ ∀ j, j < i → ¬ occ15At l j := by
  induction l with
  | nil => exact absurd h (by simp [search15])
  | cons c t ih =>
    unfold search15 at h
    cases hm : matchAt15 (c :: t) with
    | some g' =>
      rw [hm] at h
      have hg : g = g' := (Option.some_injective _ h).symm
      obtain ⟨ho, hcap⟩ := matchAt15_some _ _ hm
      refine ⟨0, ho, ?_, fun j hj => absurd hj (by omega)⟩
      rw [hg, hcap]
    | none =>
      rw [hm] at h
      obtain ⟨i, hi, hcap, hfirst⟩ := ih h
      refine ⟨i + 1, (occ15At_succ c t i).mpr hi, ?_, ?_⟩
      · rw [show i + 1 + 2 = (i + 2) + 1 from by omega, List.drop_succ_cons]
        exact hcap
      · intro j hj
        cases j with
        | zero => exact (matchAt15_none _).mp hm
        | succ j' =>
          rw [occ15At_succ]
          exact hfirst j' (by omega)

/-- C3: the ExpiryDecoder returns no match when the trimmed length is at
most 26; beyond that, its search over the substring at offset 26 succeeds
exactly when the pattern `15` followed by six digits occurs somewhere in
it, a failed search is no match, and a successful search captures the six
digits of the first occurrence. -/
theorem extraire_dlc_recherche (s : List Char) :
    ((pyStrip s).length ≤ 26 → extraire_dlc_from_scan s = none)
    ∧ (26 < (pyStrip s).length →
        ((search15 ((pyStrip s).drop 26)).isSome ↔ ∃ i, occ15At ((pyStrip s).drop 26) i)
        ∧ (search15 ((pyStrip s).drop 26) = none → extraire_dlc_from_scan s = none)
        ∧ (∀ g, search15 ((pyStrip s).drop 26) = some g →
            ∃ i, occ15At ((pyStrip s).drop 26) i
              ∧ g = (((pyStrip s).drop 26).drop (i + 2)).take 6
              ∧ ∀ j, j < i → ¬ occ15At ((pyStrip s).drop 26) j)) := by
  constructor
  · intro h
    unfold extraire_dlc_from_scan extraireChaine
    rw [if_pos h]
  · intro h
    refine ⟨⟨?_, ?_⟩, ?_, ?_⟩
    · intro hs
      obtain ⟨g, hg⟩ := Option.isSome_iff_exists.mp hs
      obtain ⟨i, hi, -, -⟩ := search15_some _ _ hg
      exact ⟨i, hi⟩
    · rintro ⟨i, hi⟩
      rcases hs : search15 ((pyStrip s).drop 26) with - | g
      · exact absurd hi ((search15_none _).mp hs i)
      · rfl
    · intro hs
      unfold extraire_dlc_from_scan extraireChaine extraireReste
      rw [if_neg (by omega), hs]
    · intro g hg
      exact search15_some _ _ hg

/-- Witness for C3: a 44-character input whose tail is too short for the
pattern yields no match, and an input carrying `15230228` beyond offset 26
has an occurrence found by the search. -/
theorem extraire_dlc_recherche_temoin :
    extraire_dlc_from_scan (("aaaaaaaaaaaaaaaaaaaaaaaaaa").toList) = none
    ∧ ∃ i, occ15At ((pyStrip (("aaaaaaaaaaaaaaaaaaaaaaaaaa15230228").toList)).drop 26) i := by
  constructor
  · exact (extraire_dlc_recherche (("aaaaaaaaaaaaaaaaaaaaaaaaaa").toList)).1 (by decide)
  · exact (((extraire_dlc_recherche (("aaaaaaaaaaaaaaaaaaaaaaaaaa15230228").toList)).2
      (by decide)).1).mp (by decide)

/-- C4: once the search has captured a six-digit group `g`, the decoder
reads it as `YYMMDD` with year `2000 + YY`, validates the triple as a real
calendar date — rejecting, not clamping, impossible combinations — and on
success renders `DD/MM/YYYY` with two-digit day and month and four-digit
year; on failure it returns no match. -/
theorem extraire_dlc_validation (s g : List Char) (h26 : 26 < (pyStrip s).length)
    (hs : search15 ((pyStrip s).drop 26) = some g) :
    (estDateValide (2000 + digitsVersNat (g.take 2)) (digitsVersNat ((g.drop 2).take 2))
        (digitsVersNat ((g.drop 4).take 2)) = true →
      extraire_dlc_from_scan s = some (rendreDate (digitsVersNat ((g.drop 4).take 2))
        (digitsVersNat ((g.drop 2).take 2)) (2000 + digitsVersNat (g.take 2))))
    ∧ (estDateValide (2000 + digitsVersNat (g.take 2)) (digitsVersNat ((g.drop 2).take 2))
        (digitsVersNat ((g.drop 4).take 2)) = false →
      extraire_dlc_from_scan s = none) := by
  have hred : extraire_dlc_from_scan s = validerDate g := by
    unfold extraire_dlc_from_scan extraireChaine extraireReste
    rw [if_neg (by omega), hs]
  have hval : validerDate g =
      if estDateValide (2000 + digitsVersNat (g.take 2)) (digitsVersNat ((g.drop 2).take 2))
          (digitsVersNat ((g.drop 4).take 2))
      then some (rendreDate (digitsVersNat ((g.drop 4).take 2))
        (digitsVersNat ((g.drop 2).take 2)) (2000 + digitsVersNat (g.take 2)))
      else none := rfl
  constructor
  · intro hv
    rw [hred, hval, if_pos hv]
  · intro hv
    rw [hred, hval, if_neg (by simp [hv])]

/-- Witness for C4 at the claim's two examples: `15230228` beyond offset 26
renders `28/02/2023`, and `15230230` (day 30 in February) is rejected. -/
theorem extraire_dlc_validation_temoin :
    extraire_dlc_from_scan (("aaaaaaaaaaaaaaaaaaaaaaaaaa15230228").toList)
      = some (("28/02/2023").toList)
    ∧ extraire_dlc_from_scan (("aaaaaaaaaaaaaaaaaaaaaaaaaa15230230").toList) = none := by
  constructor
  · have h := (extraire_dlc_validation (("aaaaaaaaaaaaaaaaaaaaaaaaaa15230228").toList)
      (("230228").toList) (by decide) (by decide)).1 (by decide)
    rw [h]
    decide
  · exact (extraire_dlc_validation (("aaaaaaaaaaaaaaaaaaaaaaaaaa15230230").toList)
      (("230230").toList) (by decide) (by decide)).2 (by decide)

/-- C10: beyond the length test, the ExpiryDecoder reads only the trimmed
input from index 26 on, so two trimmed inputs longer than 26 characters
that agree from index 26 onward decode identically. -/
theorem extraire_dlc_independant (s t : List Char)
    (hs : 26 < (pyStrip s).length) (ht : 26 < (pyStrip t).length)
    (h : (pyStrip s).drop 26 = (pyStrip t).drop 26) :
    extraire_dlc_from_scan s = extraire_dlc_from_scan t := by
  unfold extraire_dlc_from_scan extraireChaine
  rw [if_neg (by omega), if_neg (by omega), h]

/-- Witness for C10: two inputs differing in all of their first 26
characters but sharing the tail `15230228` decode to the same date. -/
theorem extraire_dlc_independant_temoin :
    extraire_dlc_from_scan (("aaaaaaaaaaaaaaaaaaaaaaaaaa15230228").toList)
      = extraire_dlc_from_scan (("bbbbbbbbbbbbbbbbbbbbbbbbbb15230228").toList) :=
  extraire_dlc_independant (("aaaaaaaaaaaaaaaaaaaaaaaaaa15230228").toList)
    (("bbbbbbbbbbbbbbbbbbbbbbbbbb15230228").toList) (by decide) (by decide) (by decide)

/-- C7: the ValueNormalizer maps null and empty (after stripping) input to
`0`, otherwise replaces commas by decimal points and parses; a failed parse
silently yields `0` and a successful parse yields the parsed value — it is
a total function, never an error.  In particular `"1,5"` gives `3/2`, the
empty string gives `0`, and `"abc"` gives `0`. -/
theorem valeur_normalisation_spec :
    valeur_formatee_vers_float none = 0
    ∧ (∀ v, pyStrip v = [] → valeur_formatee_vers_float (some v) = 0)
    ∧ (∀ v, pyFloat (remplaceVirgule (pyStrip v)) = none →
        valeur_formatee_vers_float (some v) = 0)
    ∧ (∀ v q, pyStrip v ≠ [] → pyFloat (remplaceVirgule (pyStrip v)) = some q →
        valeur_formatee_vers_float (some v) = q)
    ∧ valeur_formatee_vers_float (some (("1,5").toList)) = 3 / 2
    ∧ valeur_formatee_vers_float (some []) = 0
    ∧ valeur_formatee_vers_float (some (("abc").toList)) = 0 := by
  refine ⟨rfl, ?_, ?_, ?_, ?_, rfl, ?_⟩
  · intro v h
    show valeur_chaine v = 0
    simp [valeur_chaine, h]
  · intro v hn
    show valeur_chaine v = 0
    by_cases he : pyStrip v = []
    · simp [valeur_chaine, he]
    · simp [valeur_chaine, he, hn]
  · intro v q hne hq
    show valeur_chaine v = q
    simp [valeur_chaine, hne, hq]
  · have h : pyFloatRaw (remplaceVirgule (pyStrip (("1,5").toList))) = some (15, 1, 0) := by
      decide
    show valeur_chaine (("1,5").toList) = 3 / 2
    rw [valeur_chaine_eval, h]
    norm_num [ratVal]
  · have h : pyFloatRaw (remplaceVirgule (pyStrip (("abc").toList))) = none := by decide
    show valeur_chaine (("abc").toList) = 0
    rw [valeur_chaine_eval, h]
    rfl

/-- Witness for C7 at a whitespace-only input, stripped to the empty string
and normalized to `0`. -/
theorem valeur_normalisation_spec_temoin :
    valeur_formatee_vers_float (some ((" ").toList)) = 0 :=
  valeur_normalisation_spec.2.1 ((" ").toList) (by decide)

/-- Invariant of the aggregation loop: the result is the accumulated total
plus the sum over the remaining cells, and the first anomalous row keeps an
already-found row, else is the first anomalous position among the
remaining cells shifted by the current row index. -/
theorem mettre_a_jour_total_aux_eq (cellules : List (Option (List Char))) :
    ∀ (r : Nat) (total : ℚ) (err : Option Nat),
      mettre_a_jour_total_aux cellules r total err =
        (total + totalSpec cellules,
         match err with
         | some e => some e
         | none => Option.map (fun i => i + (r + 1)) (chercheIndex celluleAnormale cellules)) := by
  induction cellules with
  | nil =>
    intro r total err
    unfold mettre_a_jour_total_aux totalSpec chercheIndex
    cases err <;> simp
  | cons c rest ih =>
    intro r total err
    have hts : totalSpec (c :: rest) =
        (match poidsCellule c with | none => 0 | some v => v) + totalSpec rest := by
      unfold totalSpec
      rw [List.filterMap_cons]
      cases poidsCellule c <;> simp
    have hci : chercheIndex celluleAnormale (c :: rest) =
        if celluleAnormale c then some 0
        else Option.map (fun i => i + 1) (chercheIndex celluleAnormale rest) := rfl
    cases c with
    | none =>
      have h1 : mettre_a_jour_total_aux (none :: rest) r total err
          = mettre_a_jour_total_aux rest (r + 1) total err := rfl
      have hca : ¬ celluleAnormale (none : Option (List Char)) := fun h => h
      rw [h1, ih, hts, hci, if_neg hca]
      have hpc : poidsCellule (none : Option (List Char)) = none := rfl
      rw [hpc]
      congr 1
      · ring
      · cases err with
        | some e => rfl
        | none =>
          cases chercheIndex celluleAnormale rest <;> simp
          omega
    | some ct =>
      have h0 : mettre_a_jour_total_aux (some ct :: rest) r total err
          = if pyStrip ct = [] then mettre_a_jour_total_aux rest (r + 1) total err
            else mettre_a_jour_total_aux rest (r + 1) (total + poidsEffectif (pyStrip ct))
              (if anomalie (poidsEffectif (pyStrip ct)) ∧ err = none
               then some (r + 1) else err) := rfl
      have hpc0 : poidsCellule (some ct)
          = if pyStrip ct = [] then none else some (poidsEffectif (pyStrip ct)) := rfl
      by_cases hvide : pyStrip ct = []
      · have h1 : mettre_a_jour_total_aux (some ct :: rest) r total err
            = mettre_a_jour_total_aux rest (r + 1) total err := by
          rw [h0, if_pos hvide]
        have hpc : poidsCellule (some ct) = none := by
          rw [hpc0, if_pos hvide]
        have hca : ¬ celluleAnormale (some ct) := by
          intro h
          unfold celluleAnormale at h
          rw [hpc] at h
          exact h
        rw [h1, ih, hts, hci, if_neg hca, hpc]
        congr 1
        · ring
        · cases err with
          | some e => rfl
          | none =>
            cases chercheIndex celluleAnormale rest <;> simp
            omega
      · have hpc : poidsCellule (some ct) = some (poidsEffectif (pyStrip ct)) := by
          rw [hpc0, if_neg hvide]
        have hca : celluleAnormale (some ct) ↔ anomalie (poidsEffectif (pyStrip ct)) := by
          unfold celluleAnormale
          rw [hpc]
        have h1 : mettre_a_jour_total_aux (some ct :: rest) r total err
            = mettre_a_jour_total_aux rest (r + 1) (total + poidsEffectif (pyStrip ct))
                (if anomalie (poidsEffectif (pyStrip ct)) ∧ err = none
                 then some (r + 1) else err) := by
          rw [h0, if_neg hvide]
        rw [h1, ih, hts, hci, hpc]
        cases err with
        | some e =>
          rw [if_neg (by simp)]
          congr 1
          ring
        | none =>
          by_cases hav : anomalie (poidsEffectif (pyStrip ct))
          · rw [if_pos ⟨hav, rfl⟩, if_pos (hca.mpr hav)]
            congr 1
            · ring
            · simp
          · rw [if_neg (by intro hc; exact hav hc.1), if_neg (fun h => hav (hca.mp h))]
            congr 1
            · ring
            · cases chercheIndex celluleAnormale rest <;> simp
              omega

/-- C6: `mettre_a_jour_total` returns exactly the specification pair — the
sum of the normalized effective weights of the non-empty cells, and the
1-based position of the first cell whose normalized value exceeds 50 or
lies strictly between 0 and 1/100 (`none` when no such cell exists) — and
on cells normalizing to 3, 0.005 and 10 it returns total `13.005` and first
anomalous index 2. -/
theorem mettre_a_jour_total_correct :
    (∀ cellules, mettre_a_jour_total cellules = (totalSpec cellules, premierAnormalSpec cellules))
    ∧ mettre_a_jour_total
        (some (("3").toList) :: some (("0,005").toList) :: some (("10").toList) :: [])
      = (13005 / 1000, some 2) := by
  have hgen : ∀ cellules,
      mettre_a_jour_total cellules = (totalSpec cellules, premierAnormalSpec cellules) := by
    intro cellules
    unfold mettre_a_jour_total premierAnormalSpec
    rw [mettre_a_jour_total_aux_eq]
    congr 1
    ring
  have ha : pyStrip (("3").toList) = ("3").toList := by decide
  have hb : pyStrip (("0,005").toList) = ("0,005").toList := by decide
  have hc : pyStrip (("10").toList) = ("10").toList := by decide
  have hv1 : poidsEffectif (("3").toList) = 3 := by
    unfold poidsEffectif
    rw [show formater_ligne (("3").toList) = none from by decide]
    show valeur_chaine (("3").toList) = 3
    rw [valeur_chaine_eval,
      show pyFloatRaw (remplaceVirgule (pyStrip (("3").toList))) = some (3, 0, 0) from by decide]
    norm_num [ratVal]
  have hv2 : poidsEffectif (("0,005").toList) = 1 / 200 := by
    unfold poidsEffectif
    rw [show formater_ligne (("0,005").toList) = none from by decide]
    show valeur_chaine (("0,005").toList) = 1 / 200
    rw [valeur_chaine_eval,
      show pyFloatRaw (remplaceVirgule (pyStrip (("0,005").toList))) = some (5, 3, 0)
        from by decide]
    norm_num [ratVal]
  have hv3 : poidsEffectif (("10").toList) = 10 := by
    unfold poidsEffectif
    rw [show formater_ligne (("10").toList) = none from by decide]
    show valeur_chaine (("10").toList) = 10
    rw [valeur_chaine_eval,
      show pyFloatRaw (remplaceVirgule (pyStrip (("10").toList))) = some (10, 0, 0)
        from by decide]
    norm_num [ratVal]
  have hpa : poidsCellule (some (("3").toList)) = some 3 := by
    rw [show poidsCellule (some (("3").toList))
        = if pyStrip (("3").toList) = [] then none
          else some (poidsEffectif (pyStrip (("3").toList))) from rfl,
      ha, if_neg (by decide), hv1]
  have hpb : poidsCellule (some (("0,005").toList)) = some (1 / 200) := by
    rw [show poidsCellule (some (("0,005").toList))
        = if pyStrip (("0,005").toList) = [] then none
          else some (poidsEffectif (pyStrip (("0,005").toList))) from rfl,
      hb, if_neg (by decide), hv2]
  have hpc : poidsCellule (some (("10").toList)) = some 10 := by
    rw [show poidsCellule (some (("10").toList))
        = if pyStrip (("10").toList) = [] then none
          else some (poidsEffectif (pyStrip (("10").toList))) from rfl,
      hc, if_neg (by decide), hv3]
  have hcA1 : ¬ celluleAnormale (some (("3").toList)) := by
    intro h
    unfold celluleAnormale at h
    rw [hpa] at h
    rcases h with h | ⟨-, h1⟩
    · norm_num at h
    · norm_num at h1
  have hcA2 : celluleAnormale (some (("0,005").toList)) := by
    unfold celluleAnormale
    rw [hpb]
    exact Or.inr ⟨by norm_num, by norm_num⟩
  refine ⟨hgen, ?_⟩
  rw [hgen]
  congr 1
  · unfold totalSpec
    rw [List.filterMap_cons, hpa]
    rw [List.filterMap_cons, hpb]
    rw [List.filterMap_cons, hpc]
    simp only [List.filterMap_nil, List.sum_cons, List.sum_nil]
    norm_num
  · unfold premierAnormalSpec
    rw [show chercheIndex celluleAnormale
          (some (("3").toList) :: some (("0,005").toList) :: some (("10").toList) :: [])
        = if celluleAnormale (some (("3").toList)) then some 0
          else Option.map (fun i => i + 1)
            (chercheIndex celluleAnormale
              (some (("0,005").toList) :: some (("10").toList) :: [])) from rfl,
      if_neg hcA1,
      show chercheIndex celluleAnormale
          (some (("0,005").toList) :: some (("10").toList) :: [])
        = if celluleAnormale (some (("0,005").toList)) then some 0
          else Option.map (fun i => i + 1)
            (chercheIndex celluleAnormale (some (("10").toList) :: [])) from rfl,
      if_pos hcA2]
    simp
